import Mathlib

/-!
Verification development for the background-task subsystem of the
`aiagents-stock` repository: the task stores (`selector_task_db.py`,
`stock_analysis_task_db.py`, `main_force_batch_db.py`), the schedulers
(`selector_scheduler.py`, `stock_analysis_scheduler.py`,
`main_force_batch_scheduler.py`), and the JSON result normalizers.

The Python code is shallowly embedded: sqlite tables become lists of row
records, timestamps become abstract `Nat` instants supplied by the caller,
`datetime.now()` values are passed in as parameters, and the possibility of
a storage-layer (sqlite) exception is modelled by an explicit `ioFail`
boolean input.  Worker threads are modelled as pure state-transformation
functions driven by the list of per-unit outcomes and by the instant at
which the cooperative cancellation flag is first observed set.
-/

namespace StockTasks

/-- Task status values used by all three scheduler/store pairs
(`'pending' | 'running' | 'completed' | 'failed' | 'cancelled'`).
The Python code stores them as strings but only ever writes these five. -/
inductive Status where
  | pending
  | running
  | completed
  | failed
  | cancelled
deriving DecidableEq

/-- `completed`, `failed` and `cancelled` are the terminal statuses. -/
def Status.isTerminal : Status → Bool
  | .completed => true
  | .failed => true
  | .cancelled => true
  | _ => false

/-- Non-terminal statuses, i.e. the ones matched by the SQL filter
`status IN ('pending', 'running')`. -/
def Status.nonTerminal (s : Status) : Bool := !s.isTerminal

mutual
/-- Model of the Python runtime values that reach the result normalizers
(`_clean_for_json` / `clean_value`): `None`, the four scalar types, dicts
(string keys, as produced by the analysis code), lists, tuples, pandas
`DataFrame`s (a sequence of rows, each a mapping from column name to cell
value), pandas `Series` (index label to value), and arbitrary other objects.
An `obj` carries `some s` when `str(obj)` succeeds returning `s`, and
`Option.none` when `str(obj)` itself raises. -/
inductive PyVal where
  | none
  | str (s : String)
  | int (n : Int)
  | float (repr : String)
  | bool (b : Bool)
  | dict (fields : PyFields)
  | list (items : PyItems)
  | tuple (items : PyItems)
  | dataframe (rows : PyRows)
  | series (fields : PyFields)
  | obj (strForm : Option String)
deriving DecidableEq

/-- Association list of string keys to Python values (a Python dict). -/
inductive PyFields where
  | nil
  | cons (key : String) (value : PyVal) (rest : PyFields)
deriving DecidableEq

/-- A sequence of Python values (a Python list). -/
inductive PyItems where
  | nil
  | cons (head : PyVal) (rest : PyItems)
deriving DecidableEq

/-- The rows of a pandas DataFrame, each row a column-to-cell mapping. -/
inductive PyRows where
  | nil
  | cons (row : PyFields) (rest : PyRows)
deriving DecidableEq
end

/-- Number of rows of a DataFrame (`len(df)`). -/
def PyRows.length : PyRows → Nat
  | .nil => 0
  | .cons _ rest => 1 + rest.length

/-- `df.head(n)`: the first `n` rows, in order. -/
def PyRows.take : PyRows → Nat → PyRows
  | _, 0 => .nil
  | .nil, _ => .nil
  | .cons r rest, n + 1 => .cons r (rest.take n)

/-- `df.to_dict('records')`: the rows as a list of dicts, in row order.
The cell values are passed through unchanged (pandas does not transform
them), which is exactly what the source's `to_dict('records')` does. -/
def PyRows.toRecords : PyRows → PyItems
  | .nil => .nil
  | .cons row rest => .cons (.dict row) rest.toRecords

/-- Length of a Python list. -/
def PyItems.length : PyItems → Nat
  | .nil => 0
  | .cons _ rest => 1 + rest.length

/-- Whether a value is a Python string. -/
def PyVal.isStr : PyVal → Bool
  | .str _ => true
  | _ => false

namespace SelectorTaskDB

mutual
/-- Embeds `SelectorTaskDB._clean_for_json` (src/selector_task_db.py,
lines 64-83): `None` and scalars pass through; a DataFrame becomes
`to_dict('records')` truncated to its first 100 rows when it has more than
100; a Series becomes its `to_dict()` (raw values); dicts and lists/tuples
recurse; anything else becomes `str(obj)`, and `None` when `str` raises. -/
def clean_for_json : PyVal → PyVal
  | .none => .none
  | .str s => .str s
  | .int n => .int n
  | .float r => .float r
  | .bool b => .bool b
  | .dataframe rows =>
      if 100 < rows.length then .list (rows.take 100).toRecords
      else .list rows.toRecords
  | .series fields => .dict fields
  | .dict fields => .dict (cleanFields fields)
  | .list items => .list (cleanItems items)
  | .tuple items => .list (cleanItems items)
  | .obj (some s) => .str s
  | .obj Option.none => .none

/-- Value-wise recursion of `_clean_for_json` over a dict's entries. -/
def cleanFields : PyFields → PyFields
  | .nil => .nil
  | .cons k v rest => .cons k (clean_for_json v) (cleanFields rest)

/-- Element-wise recursion of `_clean_for_json` over a list or tuple. -/
def cleanItems : PyItems → PyItems
  | .nil => .nil
  | .cons v rest => .cons (clean_for_json v) (cleanItems rest)
end

end SelectorTaskDB

namespace StockAnalysisTaskDB

mutual
/-- Embeds `StockAnalysisTaskDB._clean_for_json`
(src/stock_analysis_task_db.py, lines 63-83); the body is identical to
`SelectorTaskDB._clean_for_json`. -/
def clean_for_json : PyVal → PyVal
  | .none => .none
  | .str s => .str s
  | .int n => .int n
  | .float r => .float r
  | .bool b => .bool b
  | .dataframe rows =>
      if 100 < rows.length then .list (rows.take 100).toRecords
      else .list rows.toRecords
  | .series fields => .dict fields
  | .dict fields => .dict (cleanFields fields)
  | .list items => .list (cleanItems items)
  | .tuple items => .list (cleanItems items)
  | .obj (some s) => .str s
  | .obj Option.none => .none

/-- Value-wise recursion over a dict's entries. -/
def cleanFields : PyFields → PyFields
  | .nil => .nil
  | .cons k v rest => .cons k (clean_for_json v) (cleanFields rest)

/-- Element-wise recursion over a list or tuple. -/
def cleanItems : PyItems → PyItems
  | .nil => .nil
  | .cons v rest => .cons (clean_for_json v) (cleanItems rest)
end

end StockAnalysisTaskDB

namespace MainForceBatchDatabase

mutual
/-- Embeds the inner `clean_value` of
`MainForceBatchDatabase._clean_results_for_json`
(src/main_force_batch_db.py, lines 92-119).  Same rules as the selector
store's normalizer except that when `str(value)` raises the fixed sentinel
string `"无法序列化"` is substituted instead of `None`. -/
def clean_value : PyVal → PyVal
  | .none => .none
  | .dataframe rows =>
      if 100 < rows.length then .list (rows.take 100).toRecords
      else .list rows.toRecords
  | .series fields => .dict fields
  | .dict fields => .dict (cleanFieldsB fields)
  | .list items => .list (cleanItemsB items)
  | .tuple items => .list (cleanItemsB items)
  | .str s => .str s
  | .int n => .int n
  | .float r => .float r
  | .bool b => .bool b
  | .obj (some s) => .str s
  | .obj Option.none => .str "无法序列化"

/-- Value-wise recursion of `clean_value` over a dict's entries. -/
def cleanFieldsB : PyFields → PyFields
  | .nil => .nil
  | .cons k v rest => .cons k (clean_value v) (cleanFieldsB rest)

/-- Element-wise recursion of `clean_value` over a list or tuple. -/
def cleanItemsB : PyItems → PyItems
  | .nil => .nil
  | .cons v rest => .cons (clean_value v) (cleanItemsB rest)
end

end MainForceBatchDatabase

/-- A row of the `selector_tasks` table (src/selector_task_db.py, lines
28-42).  Timestamps are abstract instants (`Nat`); `params` holds the
serialized parameter payload and `results` the cleaned result value that the
source serializes with `json.dumps` before storing. -/
structure SelectorTaskRow where
  task_id : String
  selector_type : String
  status : Status
  params : Option String
  progress_percent : ℚ
  current_step : Option String
  results : Option PyVal
  error_message : Option String
  started_at : Option Nat
  completed_at : Option Nat
  created_at : Nat
deriving DecidableEq

namespace SelectorTaskDB

/-- Embeds `SelectorTaskDB.create_task` (src/selector_task_db.py, lines
85-107): inserts a `pending` row and returns `True`; any sqlite exception
(modelled by `ioFail`, which also covers the `IntegrityError` raised on a
duplicate primary key) is caught and turned into `False` with the table
unchanged. -/
def create_task (db : List SelectorTaskRow) (task_id selector_type : String)
    (params : Option String) (now : Nat) (ioFail : Bool) :
    Bool × List SelectorTaskRow :=
  if ioFail || db.any (fun r => r.task_id == task_id) then (false, db)
  else
    (true, db ++ [{ task_id := task_id, selector_type := selector_type,
                    status := .pending, params := params,
                    progress_percent := 0, current_step := Option.none,
                    results := Option.none, error_message := Option.none,
                    started_at := Option.none, completed_at := Option.none,
                    created_at := now }])

/-- Embeds `SelectorTaskDB.update_task_status` (src/selector_task_db.py,
lines 109-143): unconditionally sets `status` on the matching row, sets
`started_at` when the new status is `running`, sets `completed_at` when it
is terminal, and sets `error_message` only when a truthy (non-empty) message
is supplied.  There is no guard on the row's current status. -/
def update_task_status (db : List SelectorTaskRow) (task_id : String)
    (status : Status) (error_message : Option String) (now : Nat)
    (ioFail : Bool) : Bool × List SelectorTaskRow :=
  if ioFail then (false, db)
  else
    (true, db.map fun r =>
      if r.task_id == task_id then
        { r with
          status := status,
          started_at := if status == .running then some now else r.started_at,
          completed_at :=
            if status.isTerminal then some now else r.completed_at,
          error_message :=
            match error_message with
            | some s => if s == "" then r.error_message else some s
            | Option.none => r.error_message }
      else r)

/-- Embeds `SelectorTaskDB.update_task_progress` (src/selector_task_db.py,
lines 145-163): unconditionally sets `current_step` and `progress_percent`
on the matching row. -/
def update_task_progress (db : List SelectorTaskRow) (task_id : String)
    (current_step : String) (progress_percent : ℚ) (ioFail : Bool) :
    Bool × List SelectorTaskRow :=
  if ioFail then (false, db)
  else
    (true, db.map fun r =>
      if r.task_id == task_id then
        { r with current_step := some current_step,
                 progress_percent := progress_percent }
      else r)

/-- Embeds `SelectorTaskDB.save_task_result` (src/selector_task_db.py,
lines 165-185): stores the normalized results on the matching row. -/
def save_task_result (db : List SelectorTaskRow) (task_id : String)
    (results : PyVal) (ioFail : Bool) : Bool × List SelectorTaskRow :=
  if ioFail then (false, db)
  else
    (true, db.map fun r =>
      if r.task_id == task_id then
        { r with results := some (clean_for_json results) }
      else r)

/-- Embeds `SelectorTaskDB.get_task` (src/selector_task_db.py, lines
187-205): the row with the given primary key, if any. -/
def get_task (db : List SelectorTaskRow) (task_id : String) :
    Option SelectorTaskRow :=
  db.find? (fun r => r.task_id == task_id)

/-- Embeds `SelectorTaskDB.get_running_tasks` (src/selector_task_db.py,
lines 207-232): the rows with `status IN ('pending', 'running')`,
optionally filtered by `selector_type`.  The `ORDER BY created_at DESC`
clause is dropped; the claims only inspect membership and emptiness. -/
def get_running_tasks (db : List SelectorTaskRow)
    (selector_type : Option String) : List SelectorTaskRow :=
  match selector_type with
  | some t =>
      db.filter (fun r => r.status.nonTerminal && r.selector_type == t)
  | Option.none => db.filter (fun r => r.status.nonTerminal)

end SelectorTaskDB

/-- A row of the `analysis_tasks` table (src/stock_analysis_task_db.py,
lines 26-44). -/
structure StockTaskRow where
  task_id : String
  task_type : String
  status : Status
  symbols : List String
  period : String
  config : Option String
  total_count : Nat
  completed_count : Nat
  current_symbol : Option String
  progress_percent : ℚ
  results : Option PyVal
  error_message : Option String
  started_at : Option Nat
  completed_at : Option Nat
  created_at : Nat
deriving DecidableEq

namespace StockAnalysisTaskDB

/-- Embeds `StockAnalysisTaskDB.create_task` (src/stock_analysis_task_db.py,
lines 85-112): inserts a `pending` row with `total_count = len(symbols)`
and `completed_count` defaulting to 0; any sqlite exception (including the
duplicate-key `IntegrityError`) is caught and turned into `False`. -/
def create_task (db : List StockTaskRow) (task_id task_type : String)
    (symbols : List String) (period : String) (config : Option String)
    (now : Nat) (ioFail : Bool) : Bool × List StockTaskRow :=
  if ioFail || db.any (fun r => r.task_id == task_id) then (false, db)
  else
    (true, db ++ [{ task_id := task_id, task_type := task_type,
                    status := .pending, symbols := symbols,
                    period := period, config := config,
                    total_count := symbols.length, completed_count := 0,
                    current_symbol := Option.none, progress_percent := 0,
                    results := Option.none, error_message := Option.none,
                    started_at := Option.none, completed_at := Option.none,
                    created_at := now }])

/-- Embeds `StockAnalysisTaskDB.update_task_status`
(src/stock_analysis_task_db.py, lines 114-148); identical behaviour to the
selector store's `update_task_status`, with no terminal-state guard. -/
def update_task_status (db : List StockTaskRow) (task_id : String)
    (status : Status) (error_message : Option String) (now : Nat)
    (ioFail : Bool) : Bool × List StockTaskRow :=
  if ioFail then (false, db)
  else
    (true, db.map fun r =>
      if r.task_id == task_id then
        { r with
          status := status,
          started_at := if status == .running then some now else r.started_at,
          completed_at :=
            if status.isTerminal then some now else r.completed_at,
          error_message :=
            match error_message with
            | some s => if s == "" then r.error_message else some s
            | Option.none => r.error_message }
      else r)

/-- Embeds `StockAnalysisTaskDB.update_task_progress`
(src/stock_analysis_task_db.py, lines 150-168): unconditionally sets
`current_symbol`, `completed_count` and `progress_percent`. -/
def update_task_progress (db : List StockTaskRow) (task_id : String)
    (current_symbol : String) (completed_count : Nat)
    (progress_percent : ℚ) (ioFail : Bool) : Bool × List StockTaskRow :=
  if ioFail then (false, db)
  else
    (true, db.map fun r =>
      if r.task_id == task_id then
        { r with current_symbol := some current_symbol,
                 completed_count := completed_count,
                 progress_percent := progress_percent }
      else r)

/-- Embeds `StockAnalysisTaskDB.save_task_result`
(src/stock_analysis_task_db.py, lines 170-191). -/
def save_task_result (db : List StockTaskRow) (task_id : String)
    (results : PyVal) (ioFail : Bool) : Bool × List StockTaskRow :=
  if ioFail then (false, db)
  else
    (true, db.map fun r =>
      if r.task_id == task_id then
        { r with results := some (clean_for_json results) }
      else r)

/-- Embeds `StockAnalysisTaskDB.get_task` (src/stock_analysis_task_db.py,
lines 193-211). -/
def get_task (db : List StockTaskRow) (task_id : String) :
    Option StockTaskRow :=
  db.find? (fun r => r.task_id == task_id)

/-- Embeds `StockAnalysisTaskDB.get_running_tasks`
(src/stock_analysis_task_db.py, lines 213-231): every row with status in
`('pending', 'running')` (no category filter exists in this store). -/
def get_running_tasks (db : List StockTaskRow) : List StockTaskRow :=
  db.filter (fun r => r.status.nonTerminal)

end StockAnalysisTaskDB

/-- The outcome of analysing one work unit, as returned by
`_analyze_single` / `analyze_single_stock`: a result dict carrying at least
the symbol and a `success` flag.  `_analyze_single` catches every exception
and returns `{"symbol": code, "success": False, "error": ...}`, so a worker
always receives a dict, never an exception. -/
structure UnitResult where
  symbol : String
  success : Bool
deriving DecidableEq

/-- The result dict of one unit as a Python value (used when a worker hands
its accumulated results to `save_task_result`). -/
def UnitResult.toPy (u : UnitResult) : PyVal :=
  .dict (.cons "symbol" (.str u.symbol) (.cons "success" (.bool u.success) .nil))

/-- A row of the `batch_analysis_history` table (src/main_force_batch_db.py,
lines 27-39).  `results` holds the entries passed to `save_batch_analysis`
(the source serializes their cleaned form). -/
structure HistoryRecord where
  id : Nat
  analysis_date : Nat
  batch_count : Nat
  analysis_mode : String
  success_count : Nat
  failed_count : Nat
  total_time : ℚ
  results : List UnitResult
deriving DecidableEq

/-- A row of the `batch_task_status` table (src/main_force_batch_db.py,
lines 48-68). -/
structure BatchTaskRow where
  id : Nat
  task_id : String
  status : Status
  stock_codes : List String
  analysis_mode : String
  max_workers : Nat
  total_count : Nat
  completed_count : Nat
  success_count : Nat
  failed_count : Nat
  current_stock : Option String
  progress_percent : ℚ
  error_message : Option String
  history_record_id : Option Nat
  started_at : Option Nat
  completed_at : Option Nat
  created_at : Nat
deriving DecidableEq

/-- The two tables of `main_force_batch.db` together with the sqlite
auto-increment counters for their integer primary keys. -/
structure BatchDB where
  history : List HistoryRecord
  next_history_id : Nat
  tasks : List BatchTaskRow
  next_task_row_id : Nat
deriving DecidableEq

namespace MainForceBatchDatabase

/-- Embeds `MainForceBatchDatabase._clean_results_for_json`
(src/main_force_batch_db.py, lines 82-134) on its intended input, a list of
result dicts: each entry is cleaned key-by-key with `clean_value`.  (The
per-entry `try/except` cannot fire for a dict input.) -/
def clean_results_for_json (results : List PyFields) : List PyFields :=
  results.map cleanFieldsB

/-- Embeds `MainForceBatchDatabase.create_task` (src/main_force_batch_db.py,
lines 332-363).  Unlike the selector and stock-analysis stores, this method
has no `try/except`: a sqlite error (modelled by `ioFail`, which also covers
the `IntegrityError` raised when `task_id` violates its UNIQUE constraint)
propagates to the caller, and on success the method returns the new row's
integer id (`cursor.lastrowid`), not a boolean. -/
def create_task (db : BatchDB) (task_id : String) (stock_codes : List String)
    (analysis_mode : String) (max_workers : Nat) (now : Nat)
    (ioFail : Bool) : Except String (Nat × BatchDB) :=
  if ioFail || db.tasks.any (fun r => r.task_id == task_id) then
    .error "sqlite3.Error"
  else
    .ok (db.next_task_row_id,
      { db with
        tasks := db.tasks ++ [{
          id := db.next_task_row_id, task_id := task_id, status := .pending,
          stock_codes := stock_codes, analysis_mode := analysis_mode,
          max_workers := max_workers, total_count := stock_codes.length,
          completed_count := 0, success_count := 0, failed_count := 0,
          current_stock := Option.none, progress_percent := 0,
          error_message := Option.none, history_record_id := Option.none,
          started_at := Option.none, completed_at := Option.none,
          created_at := now }],
        next_task_row_id := db.next_task_row_id + 1 })

/-- Embeds `MainForceBatchDatabase.update_task_status`
(src/main_force_batch_db.py, lines 365-413): always sets `status`; each of
`error_message`, `history_record_id`, `started_at`, `completed_at` is set
only when the caller supplies it (`is not None`).  No terminal-state
guard exists. -/
def update_task_status (db : BatchDB) (task_id : String) (status : Status)
    (error_message : Option String) (history_record_id : Option Nat)
    (started_at completed_at : Option Nat) : BatchDB :=
  { db with
    tasks := db.tasks.map fun r =>
      if r.task_id == task_id then
        { r with
          status := status,
          error_message :=
            match error_message with
            | some s => some s
            | Option.none => r.error_message,
          history_record_id :=
            match history_record_id with
            | some i => some i
            | Option.none => r.history_record_id,
          started_at :=
            match started_at with
            | some t => some t
            | Option.none => r.started_at,
          completed_at :=
            match completed_at with
            | some t => some t
            | Option.none => r.completed_at }
      else r }

/-- Embeds `MainForceBatchDatabase.update_task_progress`
(src/main_force_batch_db.py, lines 415-463): always sets `completed_count`;
each of `current_stock`, `success_count`, `failed_count`,
`progress_percent` is set only when supplied (`is not None`); every other
column is not mentioned in the UPDATE statement. -/
def update_task_progress (db : BatchDB) (task_id : String)
    (completed_count : Nat) (current_stock : Option String)
    (success_count failed_count : Option Nat)
    (progress_percent : Option ℚ) : BatchDB :=
  { db with
    tasks := db.tasks.map fun r =>
      if r.task_id == task_id then
        { r with
          completed_count := completed_count,
          current_stock :=
            match current_stock with
            | some s => some s
            | Option.none => r.current_stock,
          success_count :=
            match success_count with
            | some n => n
            | Option.none => r.success_count,
          failed_count :=
            match failed_count with
            | some n => n
            | Option.none => r.failed_count,
          progress_percent :=
            match progress_percent with
            | some p => p
            | Option.none => r.progress_percent }
      else r }

/-- Embeds `MainForceBatchDatabase.save_batch_analysis`
(src/main_force_batch_db.py, lines 136-178): appends a history record and
returns its id (`cursor.lastrowid`). -/
def save_batch_analysis (db : BatchDB) (analysis_date : Nat)
    (batch_count : Nat) (analysis_mode : String)
    (success_count failed_count : Nat) (total_time : ℚ)
    (results : List UnitResult) : Nat × BatchDB :=
  (db.next_history_id,
    { db with
      history := db.history ++ [{
        id := db.next_history_id, analysis_date := analysis_date,
        batch_count := batch_count, analysis_mode := analysis_mode,
        success_count := success_count, failed_count := failed_count,
        total_time := total_time, results := results }],
      next_history_id := db.next_history_id + 1 })

/-- Embeds `MainForceBatchDatabase.get_task_by_id`
(src/main_force_batch_db.py, lines 465-489). -/
def get_task_by_id (db : BatchDB) (task_id : String) : Option BatchTaskRow :=
  db.tasks.find? (fun r => r.task_id == task_id)

/-- Embeds `MainForceBatchDatabase.get_running_task`
(src/main_force_batch_db.py, lines 491-515): some row with status in
`('pending', 'running')` if one exists.  The source picks the most recently
created one; the claims only use whether the result is `None`. -/
def get_running_task (db : BatchDB) : Option BatchTaskRow :=
  db.tasks.find? (fun r => r.status.nonTerminal)

end MainForceBatchDatabase

/-- The dict a scheduler `start` method returns to its caller:
`{"task_id": ..., "success": bool, "message": ...}` with the
human-readable message omitted. -/
structure StartResult where
  task_id : Option String
  success : Bool
deriving DecidableEq

/-- In-memory state of the `SelectorScheduler` singleton
(src/selector_scheduler.py, lines 20-23): the set of selector types whose
per-category lock is currently held, and the registered cancellation events
(task id paired with whether `Event.is_set()`). -/
structure SelectorSchedulerState where
  locks_held : List String
  cancel_events : List (String × Bool)
  db : List SelectorTaskRow
deriving DecidableEq

namespace SelectorScheduler

/-- Embeds `SelectorScheduler.start_background_selection`
(src/selector_scheduler.py, lines 32-114): non-blocking acquire of the
per-type lock (reject if already held); store-level re-check for an
existing non-terminal task of the same type (reject and release the lock);
otherwise register a cancel event, create the `pending` row (on create
failure, release the lock and reject) and hand the still-held lock to the
spawned worker.  `new_task_id` stands for the generated `uuid4` string and
`ioFail` for a sqlite failure inside `create_task`. -/
def start_background_selection (st : SelectorSchedulerState)
    (selector_type : String) (params : Option String) (new_task_id : String)
    (now : Nat) (ioFail : Bool) : StartResult × SelectorSchedulerState :=
  if st.locks_held.contains selector_type then
    ({ task_id := Option.none, success := false }, st)
  else
    match SelectorTaskDB.get_running_tasks st.db (some selector_type) with
    | _ :: _ => ({ task_id := Option.none, success := false }, st)
    | [] =>
        let st1 :=
          { st with cancel_events := (new_task_id, false) :: st.cancel_events }
        match SelectorTaskDB.create_task st1.db new_task_id selector_type
            params now ioFail with
        | (false, db1) =>
            ({ task_id := Option.none, success := false },
             { st1 with db := db1 })
        | (true, db1) =>
            ({ task_id := some new_task_id, success := true },
             { st1 with db := db1,
                        locks_held := selector_type :: st.locks_held })

/-- Embeds `SelectorScheduler.cancel_task` (src/selector_scheduler.py,
lines 196-215): if the task has a registered cancel event, set it; else
fall back to the store — a `pending`/`running` row is directly marked
`cancelled`, while a missing or already-terminal task is refused and
nothing is modified. -/
def cancel_task (st : SelectorSchedulerState) (task_id : String)
    (now : Nat) : Bool × SelectorSchedulerState :=
  if (st.cancel_events.find? (fun e => e.1 == task_id)).isSome then
    let events :=
      st.cancel_events.map (fun e => if e.1 == task_id then (e.1, true) else e)
    (true, { st with cancel_events := events })
  else
    match SelectorTaskDB.get_task st.db task_id with
    | some t =>
        if t.status == .pending || t.status == .running then
          (true,
           { st with db := (SelectorTaskDB.update_task_status st.db task_id
               .cancelled Option.none now false).2 })
        else (false, st)
    | Option.none => (false, st)

end SelectorScheduler

/-- In-memory state of the `StockAnalysisScheduler` singleton
(src/stock_analysis_scheduler.py, lines 17-20).  The `self._lock` created
in `__init__` is never acquired anywhere in the class, so it does not
appear in the state. -/
structure StockSchedulerState where
  cancel_events : List (String × Bool)
  db : List StockTaskRow
deriving DecidableEq

namespace StockAnalysisScheduler

/-- Embeds `StockAnalysisScheduler.start_background_analysis`
(src/stock_analysis_scheduler.py, lines 22-92).  The method performs no
lock acquisition and no check for existing non-terminal tasks: it creates
the `pending` row unconditionally, registers a cancel event and spawns the
worker. -/
def start_background_analysis (st : StockSchedulerState)
    (symbol period : String) (config : Option String) (new_task_id : String)
    (now : Nat) (ioFail : Bool) : StartResult × StockSchedulerState :=
  match StockAnalysisTaskDB.create_task st.db new_task_id "single" [symbol]
      period config now ioFail with
  | (false, db1) =>
      ({ task_id := Option.none, success := false }, { st with db := db1 })
  | (true, db1) =>
      ({ task_id := some new_task_id, success := true },
       { st with db := db1,
                 cancel_events := (new_task_id, false) :: st.cancel_events })

end StockAnalysisScheduler

/-- In-memory state of the `MainForceBatchScheduler` singleton
(src/main_force_batch_scheduler.py, lines 22-26). -/
structure BatchSchedulerState where
  lock_held : Bool
  cancel_flag : Bool
  current_task_id : Option String
  db : BatchDB
deriving DecidableEq

namespace MainForceBatchScheduler

/-- Embeds `MainForceBatchScheduler.start_batch_analysis`
(src/main_force_batch_scheduler.py, lines 29-100): non-blocking acquire of
the single task lock (reject if held); store-level check for a
`pending`/`running` row (reject and release); otherwise record the current
task id, clear the cancel flag and create the row — `create_task` can
raise, in which case the surrounding `except` releases the lock and
rejects. -/
def start_batch_analysis (st : BatchSchedulerState)
    (stock_codes : List String) (analysis_mode : String) (max_workers : Nat)
    (new_task_id : String) (now : Nat) (ioFail : Bool) :
    StartResult × BatchSchedulerState :=
  if st.lock_held then ({ task_id := Option.none, success := false }, st)
  else
    match MainForceBatchDatabase.get_running_task st.db with
    | some _ => ({ task_id := Option.none, success := false }, st)
    | Option.none =>
        let st1 := { st with current_task_id := some new_task_id,
                             cancel_flag := false }
        match MainForceBatchDatabase.create_task st.db new_task_id
            stock_codes analysis_mode max_workers now ioFail with
        | .error _ => ({ task_id := Option.none, success := false }, st1)
        | .ok (_, db1) =>
            ({ task_id := some new_task_id, success := true },
             { st1 with db := db1, lock_held := true })

end MainForceBatchScheduler

/-- Whether a worker's cancellation flag is observed set at its `j`-th
check (checks numbered from 0 in the order the worker performs them).
`cancelFrom = some k` means the flag becomes set just before check `k`;
`Option.none` means it is never set during the run.  A `threading.Event`
is never cleared while a run is in flight, so once observed set it stays
set at every later check. -/
def cancelSeen (cancelFrom : Option Nat) (j : Nat) : Bool :=
  match cancelFrom with
  | some k => decide (k ≤ j)
  | Option.none => false

/-- `sum(1 for r in results if r.get('success'))`. -/
def successCount (results : List UnitResult) : Nat :=
  results.countP (fun r => r.success)

/-- `sum(1 for r in results if not r.get('success'))`. -/
def failureCount (results : List UnitResult) : Nat :=
  results.countP (fun r => !r.success)

namespace MainForceBatchScheduler

/-- Embeds the `for i, code in enumerate(stock_codes)` loop of the
sequential branch of `MainForceBatchScheduler._run_analysis`
(src/main_force_batch_scheduler.py, lines 138-163): before each unit the
cancel flag is checked (`break` if set); otherwise a progress update with
`completed_count = i` and the unit's code is written, the unit's outcome is
appended to the accumulator, and a second progress update with
`completed_count = i + 1` and the running success/failure totals is
written.  Returns the table state, the accumulated results and the trace of
`completed_count` values written, in call order. -/
def run_sequential_units (task_id : String) (total : Nat)
    (cancelFrom : Option Nat) :
    List UnitResult → Nat → BatchDB → List UnitResult → List Nat →
    BatchDB × List UnitResult × List Nat
  | [], _, db, results, trace => (db, results, trace)
  | o :: rest, i, db, results, trace =>
      if cancelSeen cancelFrom i then (db, results, trace)
      else
        let db1 := MainForceBatchDatabase.update_task_progress db task_id i
          (some o.symbol) Option.none Option.none
          (some ((i : ℚ) / (total : ℚ) * 100))
        let results1 := results ++ [o]
        let db2 := MainForceBatchDatabase.update_task_progress db1 task_id
          (i + 1) Option.none (some (successCount results1))
          (some (failureCount results1))
          (some (((i : ℚ) + 1) / (total : ℚ) * 100))
        run_sequential_units task_id total cancelFrom rest (i + 1) db2
          results1 (trace ++ [i, i + 1])

/-- Aggregate outcome of one worker run: final table state, accumulated
per-unit results, and the `completed_count` values written by the
progress updates, in order. -/
structure RunOutcome where
  db : BatchDB
  results : List UnitResult
  trace : List Nat
deriving DecidableEq

/-- Embeds `MainForceBatchScheduler._run_analysis` in sequential mode
(src/main_force_batch_scheduler.py, lines 102-246): mark the task
`running`, drive the sequential loop, then — only if the cancel flag is not
set — save the accumulated results as a history record and mark the task
`completed` with the record's id; if the flag is set, mark the task
`cancelled` and save nothing.  `outcomes` lists, in order, the result
`_analyze_single` produces for each entry of `stock_codes` (it never
raises); `startTime`/`endTime`/`elapsed` are the wall-clock values. -/
def run_analysis_sequential (db0 : BatchDB) (task_id : String)
    (outcomes : List UnitResult) (cancelFrom : Option Nat)
    (startTime endTime : Nat) (elapsed : ℚ) : RunOutcome :=
  let total := outcomes.length
  let db1 := MainForceBatchDatabase.update_task_status db0 task_id .running
    Option.none Option.none (some startTime) Option.none
  let out := run_sequential_units task_id total cancelFrom outcomes 0 db1 [] []
  let db2 := out.1
  let results := out.2.1
  let trace := out.2.2
  if cancelSeen cancelFrom results.length then
    { db := MainForceBatchDatabase.update_task_status db2 task_id .cancelled
        Option.none Option.none Option.none (some endTime),
      results := results, trace := trace }
  else
    let sc := successCount results
    let fc := results.length - sc
    let saved := MainForceBatchDatabase.save_batch_analysis db2 endTime
      outcomes.length "sequential" sc fc elapsed results
    { db := MainForceBatchDatabase.update_task_status saved.2 task_id
        .completed Option.none (some saved.1) Option.none (some endTime),
      results := results, trace := trace }

end MainForceBatchScheduler

/-- The accumulated results list as the Python list handed to
`save_task_result`. -/
def pyItemsOf : List UnitResult → PyItems
  | [] => .nil
  | u :: rest => .cons u.toPy (pyItemsOf rest)

namespace StockAnalysisScheduler

/-- Embeds the `as_completed` loop of
`StockAnalysisScheduler._run_batch_analysis`
(src/stock_analysis_scheduler.py, lines 258-307).  `arrivals` lists the
per-unit results in completion order (the pool fixes no order); the three
source branches (normal result, `TimeoutError`, other exception) each
append one result dict, increment `completed` and write one progress
update, so they collapse into one case.  On observing the cancel flag the
source marks the task `cancelled` and returns from the worker (the final
`Bool` reports that early return). -/
def run_batch_units (task_id : String) (total : Nat)
    (cancelFrom : Option Nat) (cancelTime : Nat) :
    List UnitResult → Nat → List StockTaskRow → List UnitResult →
    List Nat → List StockTaskRow × List UnitResult × List Nat × Bool
  | [], _, db, results, trace => (db, results, trace, false)
  | a :: rest, j, db, results, trace =>
      if cancelSeen cancelFrom j then
        ((StockAnalysisTaskDB.update_task_status db task_id .cancelled
            Option.none cancelTime false).2, results, trace, true)
      else
        let results1 := results ++ [a]
        let db1 := (StockAnalysisTaskDB.update_task_progress db task_id
          a.symbol (j + 1) (((j : ℚ) + 1) / (total : ℚ) * 100) false).2
        run_batch_units task_id total cancelFrom cancelTime rest (j + 1) db1
          results1 (trace ++ [j + 1])

/-- Embeds `StockAnalysisScheduler._run_batch_analysis`
(src/stock_analysis_scheduler.py, lines 231-330): mark the task `running`,
drive the completion loop; if it ran to exhaustion, save the accumulated
results and mark the task `completed` — with an error message recording the
split when some units failed (`failed_count = total - success_count`,
line 314) — never `failed` on per-unit failures alone. -/
def run_batch_analysis (db0 : List StockTaskRow) (task_id : String)
    (arrivals : List UnitResult) (cancelFrom : Option Nat)
    (startTime endTime : Nat) :
    List StockTaskRow × List UnitResult × List Nat :=
  let db1 := (StockAnalysisTaskDB.update_task_status db0 task_id .running
    Option.none startTime false).2
  let total := arrivals.length
  let out := run_batch_units task_id total cancelFrom endTime arrivals 0
    db1 [] []
  let db2 := out.1
  let results := out.2.1
  let trace := out.2.2.1
  let wasCancelled := out.2.2.2
  if wasCancelled then (db2, results, trace)
  else
    let db3 := (StockAnalysisTaskDB.save_task_result db2 task_id
      (.list (pyItemsOf results)) false).2
    let sc := successCount results
    let fc := total - sc
    if fc == 0 then
      ((StockAnalysisTaskDB.update_task_status db3 task_id .completed
          Option.none endTime false).2, results, trace)
    else
      ((StockAnalysisTaskDB.update_task_status db3 task_id .completed
          (some ("成功" ++ toString sc ++ "个，失败" ++ toString fc ++ "个"))
          endTime false).2, results, trace)

end StockAnalysisScheduler

/-- Scalar-or-null values: the cell shapes for which a DataFrame's
`to_dict('records')` (or a Series' `to_dict()`) output needs no further
normalization. -/
def PyVal.scalarOrNone : PyVal → Bool
  | .none => true
  | .str _ => true
  | .int _ => true
  | .float _ => true
  | .bool _ => true
  | _ => false

mutual
/-- Values already in the normalizers' output form: `None`, scalars, and
dicts/lists of such.  (Tuples are JSON-encodable in Python but are rewritten
to lists by the normalizers, so they are excluded.) -/
def PyVal.isJsonSafe : PyVal → Bool
  | .none => true
  | .str _ => true
  | .int _ => true
  | .float _ => true
  | .bool _ => true
  | .dict fs => fs.allJsonSafe
  | .list xs => xs.allJsonSafe
  | .tuple _ => false
  | .dataframe _ => false
  | .series _ => false
  | .obj _ => false

/-- All values of a dict are in normalized form. -/
def PyFields.allJsonSafe : PyFields → Bool
  | .nil => true
  | .cons _ v rest => v.isJsonSafe && rest.allJsonSafe

/-- All elements of a list are in normalized form. -/
def PyItems.allJsonSafe : PyItems → Bool
  | .nil => true
  | .cons v rest => v.isJsonSafe && rest.allJsonSafe
end

/-- All values of a dict are scalars or null. -/
def PyFields.allScalar : PyFields → Bool
  | .nil => true
  | .cons _ v rest => v.scalarOrNone && rest.allScalar

/-- All cells of all rows are scalars or null. -/
def PyRows.allScalar : PyRows → Bool
  | .nil => true
  | .cons row rest => row.allScalar && rest.allScalar

mutual
/-- Inputs whose tabular nodes (DataFrames and Series) hold only
scalar-or-null cells.  Since the normalizers pass tabular cell values
through raw, this is the condition under which their output is fully
normalized. -/
def PyVal.goodCells : PyVal → Bool
  | .none => true
  | .str _ => true
  | .int _ => true
  | .float _ => true
  | .bool _ => true
  | .obj _ => true
  | .dict fs => fs.goodCells
  | .list xs => xs.goodCells
  | .tuple xs => xs.goodCells
  | .dataframe rows => rows.allScalar
  | .series fs => fs.allScalar

/-- `goodCells` over a dict's values. -/
def PyFields.goodCells : PyFields → Bool
  | .nil => true
  | .cons _ v rest => v.goodCells && rest.goodCells

/-- `goodCells` over a list's elements. -/
def PyItems.goodCells : PyItems → Bool
  | .nil => true
  | .cons v rest => v.goodCells && rest.goodCells
end

theorem PyVal.isJsonSafe_of_scalarOrNone :
    ∀ v : PyVal, v.scalarOrNone = true → v.isJsonSafe = true := by
  intro v h
  cases v <;> simp_all [PyVal.scalarOrNone, PyVal.isJsonSafe]

theorem PyFields.allJsonSafe_of_allScalar :
    ∀ fs : PyFields, fs.allScalar = true → fs.allJsonSafe = true
  | .nil, _ => rfl
  | .cons _ v rest, h => by
      simp only [PyFields.allScalar, Bool.and_eq_true] at h
      simp [PyFields.allJsonSafe, PyVal.isJsonSafe_of_scalarOrNone v h.1,
        PyFields.allJsonSafe_of_allScalar rest h.2]

theorem PyRows.allScalar_take :
    ∀ (rows : PyRows) (n : Nat), rows.allScalar = true →
      (rows.take n).allScalar = true
  | rows, 0, _ => by cases rows <;> rfl
  | .nil, _ + 1, _ => rfl
  | .cons r rest, n + 1, h => by
      simp only [PyRows.allScalar, Bool.and_eq_true] at h
      simp [PyRows.take, PyRows.allScalar, h.1,
        PyRows.allScalar_take rest n h.2]

theorem PyRows.toRecords_allJsonSafe :
    ∀ rows : PyRows, rows.allScalar = true →
      rows.toRecords.allJsonSafe = true
  | .nil, _ => rfl
  | .cons r rest, h => by
      simp only [PyRows.allScalar, Bool.and_eq_true] at h
      simp [PyRows.toRecords, PyItems.allJsonSafe, PyVal.isJsonSafe,
        PyFields.allJsonSafe_of_allScalar r h.1,
        PyRows.toRecords_allJsonSafe rest h.2]

theorem PyRows.toRecords_length :
    ∀ rows : PyRows, rows.toRecords.length = rows.length
  | .nil => rfl
  | .cons r rest => by
      simp [PyRows.toRecords, PyItems.length, PyRows.length,
        PyRows.toRecords_length rest]

theorem PyRows.take_length :
    ∀ (rows : PyRows) (n : Nat), (rows.take n).length = min n rows.length
  | _, 0 => by simp [PyRows.take, PyRows.length]
  | .nil, n + 1 => by simp [PyRows.take, PyRows.length]
  | .cons r rest, n + 1 => by
      simp only [PyRows.take, PyRows.length, PyRows.take_length rest n]
      omega

namespace SelectorTaskDB

mutual
/-- Already-normalized values are fixed points of the selector store's
normalizer. -/
theorem clean_fixed : ∀ v : PyVal, v.isJsonSafe = true → clean_for_json v = v
  | .none, _ => rfl
  | .str _, _ => rfl
  | .int _, _ => rfl
  | .float _, _ => rfl
  | .bool _, _ => rfl
  | .dict fs, h => by
      have hf : fs.allJsonSafe = true := by
        simpa [PyVal.isJsonSafe] using h
      simp [clean_for_json, cleanFields_fixed fs hf]
  | .list xs, h => by
      have hx : xs.allJsonSafe = true := by
        simpa [PyVal.isJsonSafe] using h
      simp [clean_for_json, cleanItems_fixed xs hx]
  | .tuple _, h => by simp [PyVal.isJsonSafe] at h
  | .dataframe _, h => by simp [PyVal.isJsonSafe] at h
  | .series _, h => by simp [PyVal.isJsonSafe] at h
  | .obj _, h => by simp [PyVal.isJsonSafe] at h

/-- Field-wise version of `clean_fixed`. -/
theorem cleanFields_fixed :
    ∀ fs : PyFields, fs.allJsonSafe = true → cleanFields fs = fs
  | .nil, _ => rfl
  | .cons k v rest, h => by
      simp only [PyFields.allJsonSafe, Bool.and_eq_true] at h
      simp [cleanFields, clean_fixed v h.1, cleanFields_fixed rest h.2]

/-- Element-wise version of `clean_fixed`. -/
theorem cleanItems_fixed :
    ∀ xs : PyItems, xs.allJsonSafe = true → cleanItems xs = xs
  | .nil, _ => rfl
  | .cons v rest, h => by
      simp only [PyItems.allJsonSafe, Bool.and_eq_true] at h
      simp [cleanItems, clean_fixed v h.1, cleanItems_fixed rest h.2]
end

mutual
/-- On inputs whose tabular cells are scalars, the selector store's
normalizer produces fully normalized output. -/
theorem clean_jsonSafe :
    ∀ v : PyVal, v.goodCells = true → (clean_for_json v).isJsonSafe = true
  | .none, _ => rfl
  | .str _, _ => rfl
  | .int _, _ => rfl
  | .float _, _ => rfl
  | .bool _, _ => rfl
  | .dict fs, h => by
      have hf : fs.goodCells = true := by simpa [PyVal.goodCells] using h
      simpa [clean_for_json, PyVal.isJsonSafe] using cleanFields_jsonSafe fs hf
  | .list xs, h => by
      have hx : xs.goodCells = true := by simpa [PyVal.goodCells] using h
      simpa [clean_for_json, PyVal.isJsonSafe] using cleanItems_jsonSafe xs hx
  | .tuple xs, h => by
      have hx : xs.goodCells = true := by simpa [PyVal.goodCells] using h
      simpa [clean_for_json, PyVal.isJsonSafe] using cleanItems_jsonSafe xs hx
  | .dataframe rows, h => by
      have hr : rows.allScalar = true := by simpa [PyVal.goodCells] using h
      by_cases hlen : 100 < rows.length
      · simp [clean_for_json, hlen, PyVal.isJsonSafe,
          PyRows.toRecords_allJsonSafe _ (PyRows.allScalar_take rows 100 hr)]
      · simp [clean_for_json, hlen, PyVal.isJsonSafe,
          PyRows.toRecords_allJsonSafe rows hr]
  | .series fs, h => by
      have hf : fs.allScalar = true := by simpa [PyVal.goodCells] using h
      simpa [clean_for_json, PyVal.isJsonSafe] using
        PyFields.allJsonSafe_of_allScalar fs hf
  | .obj (some _), _ => rfl
  | .obj Option.none, _ => rfl

/-- Field-wise version of `clean_jsonSafe`. -/
theorem cleanFields_jsonSafe :
    ∀ fs : PyFields, fs.goodCells = true → (cleanFields fs).allJsonSafe = true
  | .nil, _ => rfl
  | .cons k v rest, h => by
      simp only [PyFields.goodCells, Bool.and_eq_true] at h
      simp [cleanFields, PyFields.allJsonSafe, clean_jsonSafe v h.1,
        cleanFields_jsonSafe rest h.2]

/-- Element-wise version of `clean_jsonSafe`. -/
theorem cleanItems_jsonSafe :
    ∀ xs : PyItems, xs.goodCells = true → (cleanItems xs).allJsonSafe = true
  | .nil, _ => rfl
  | .cons v rest, h => by
      simp only [PyItems.goodCells, Bool.and_eq_true] at h
      simp [cleanItems, PyItems.allJsonSafe, clean_jsonSafe v h.1,
        cleanItems_jsonSafe rest h.2]
end

end SelectorTaskDB

namespace MainForceBatchDatabase

mutual
/-- On inputs whose tabular cells are scalars, the batch store's normalizer
produces fully normalized output. -/
theorem cleanValue_jsonSafe :
    ∀ v : PyVal, v.goodCells = true → (clean_value v).isJsonSafe = true
  | .none, _ => rfl
  | .str _, _ => rfl
  | .int _, _ => rfl
  | .float _, _ => rfl
  | .bool _, _ => rfl
  | .dict fs, h => by
      have hf : fs.goodCells = true := by simpa [PyVal.goodCells] using h
      simpa [clean_value, PyVal.isJsonSafe] using cleanFieldsB_jsonSafe fs hf
  | .list xs, h => by
      have hx : xs.goodCells = true := by simpa [PyVal.goodCells] using h
      simpa [clean_value, PyVal.isJsonSafe] using cleanItemsB_jsonSafe xs hx
  | .tuple xs, h => by
      have hx : xs.goodCells = true := by simpa [PyVal.goodCells] using h
      simpa [clean_value, PyVal.isJsonSafe] using cleanItemsB_jsonSafe xs hx
  | .dataframe rows, h => by
      have hr : rows.allScalar = true := by simpa [PyVal.goodCells] using h
      by_cases hlen : 100 < rows.length
      · simp [clean_value, hlen, PyVal.isJsonSafe,
          PyRows.toRecords_allJsonSafe _ (PyRows.allScalar_take rows 100 hr)]
      · simp [clean_value, hlen, PyVal.isJsonSafe,
          PyRows.toRecords_allJsonSafe rows hr]
  | .series fs, h => by
      have hf : fs.allScalar = true := by simpa [PyVal.goodCells] using h
      simpa [clean_value, PyVal.isJsonSafe] using
        PyFields.allJsonSafe_of_allScalar fs hf
  | .obj (some _), _ => rfl
  | .obj Option.none, _ => rfl

/-- Field-wise version of `cleanValue_jsonSafe`. -/
theorem cleanFieldsB_jsonSafe :
    ∀ fs : PyFields, fs.goodCells = true →
      (cleanFieldsB fs).allJsonSafe = true
  | .nil, _ => rfl
  | .cons k v rest, h => by
      simp only [PyFields.goodCells, Bool.and_eq_true] at h
      simp [cleanFieldsB, PyFields.allJsonSafe, cleanValue_jsonSafe v h.1,
        cleanFieldsB_jsonSafe rest h.2]

/-- Element-wise version of `cleanValue_jsonSafe`. -/
theorem cleanItemsB_jsonSafe :
    ∀ xs : PyItems, xs.goodCells = true → (cleanItemsB xs).allJsonSafe = true
  | .nil, _ => rfl
  | .cons v rest, h => by
      simp only [PyItems.goodCells, Bool.and_eq_true] at h
      simp [cleanItemsB, PyItems.allJsonSafe, cleanValue_jsonSafe v h.1,
        cleanItemsB_jsonSafe rest h.2]
end

end MainForceBatchDatabase

/-- `n` identical rows, for building concrete large DataFrames. -/
def PyRows.replicate : Nat → PyFields → PyRows
  | 0, _ => .nil
  | n + 1, f => .cons f (PyRows.replicate n f)

theorem PyRows.replicate_length :
    ∀ (n : Nat) (f : PyFields), (PyRows.replicate n f).length = n
  | 0, _ => rfl
  | n + 1, f => by
      simp [PyRows.replicate, PyRows.length, PyRows.replicate_length n f]
      omega

namespace MainForceBatchDatabase

theorem update_task_progress_history (db : BatchDB) (tid : String) (c : Nat)
    (cs : Option String) (sc fc : Option Nat) (pp : Option ℚ) :
    (update_task_progress db tid c cs sc fc pp).history = db.history := rfl

theorem update_task_status_history (db : BatchDB) (tid : String) (s : Status)
    (em : Option String) (hid : Option Nat) (st ct : Option Nat) :
    (update_task_status db tid s em hid st ct).history = db.history := rfl

theorem update_task_progress_match (db : BatchDB) (tid : String) (c : Nat)
    (cs : Option String) (sc fc : Option Nat) (pp : Option ℚ) :
    ∀ r ∈ (update_task_progress db tid c cs sc fc pp).tasks,
      r.task_id = tid →
        r.completed_count = c ∧
          (∀ n, sc = some n → r.success_count = n) ∧
          (∀ n, fc = some n → r.failed_count = n) := by
  intro r hr htid
  simp only [update_task_progress, List.mem_map] at hr
  obtain ⟨r0, hr0, rfl⟩ := hr
  by_cases h : r0.task_id = tid
  · rw [if_pos (by simpa [beq_iff_eq] using h)]
    refine ⟨rfl, ?_, ?_⟩
    · intro n hn; simp [hn]
    · intro n hn; simp [hn]
  · rw [if_neg (by simpa [beq_iff_eq] using h)] at htid
    exact absurd htid h

theorem update_task_status_match (db : BatchDB) (tid : String) (s : Status)
    (em : Option String) (hid : Option Nat) (st ct : Option Nat) :
    ∀ r ∈ (update_task_status db tid s em hid st ct).tasks,
      r.task_id = tid → r.status = s := by
  intro r hr htid
  simp only [update_task_status, List.mem_map] at hr
  obtain ⟨r0, hr0, rfl⟩ := hr
  by_cases h : r0.task_id = tid
  · rw [if_pos (by simpa [beq_iff_eq] using h)]
  · rw [if_neg (by simpa [beq_iff_eq] using h)] at htid
    exact absurd htid h

theorem update_task_status_shape (db : BatchDB) (tid : String) (s : Status)
    (em : Option String) (hid : Option Nat) (st ct : Option Nat) :
    ∀ r ∈ (update_task_status db tid s em hid st ct).tasks,
      ∃ r0 ∈ db.tasks,
        r.task_id = r0.task_id ∧ r.completed_count = r0.completed_count ∧
          r.success_count = r0.success_count ∧
          r.failed_count = r0.failed_count := by
  intro r hr
  simp only [update_task_status, List.mem_map] at hr
  obtain ⟨r0, hr0, rfl⟩ := hr
  refine ⟨r0, hr0, ?_⟩
  by_cases h : r0.task_id = tid
  · rw [if_pos (by simpa [beq_iff_eq] using h)]
    exact ⟨rfl, rfl, rfl, rfl⟩
  · rw [if_neg (by simpa [beq_iff_eq] using h)]
    exact ⟨rfl, rfl, rfl, rfl⟩

end MainForceBatchDatabase

namespace StockAnalysisTaskDB

theorem stock_update_task_status_match (db : List StockTaskRow)
    (tid : String)
    (s : Status) (em : Option String) (now : Nat) :
    ∀ r ∈ (update_task_status db tid s em now false).2,
      r.task_id = tid → r.status = s := by
  intro r hr htid
  simp only [update_task_status, Bool.false_eq_true, if_false,
    List.mem_map] at hr
  obtain ⟨r0, hr0, rfl⟩ := hr
  by_cases h : r0.task_id = tid
  · rw [if_pos (by simpa [beq_iff_eq] using h)]
  · rw [if_neg (by simpa [beq_iff_eq] using h)] at htid
    exact absurd htid h

end StockAnalysisTaskDB

theorem successCount_add_failureCount (l : List UnitResult) :
    successCount l + failureCount l = l.length := by
  induction l with
  | nil => rfl
  | cons a t ih =>
      by_cases h : a.success <;>
        simp only [successCount, failureCount, List.countP_cons, h,
          List.length_cons] at * <;> simp <;> omega

theorem mem_of_getLast?_nat :
    ∀ {l : List Nat} {a : Nat}, l.getLast? = some a → a ∈ l
  | [], _, h => by simp at h
  | [x], a, h => by
      simp only [List.getLast?_singleton, Option.some.injEq] at h
      simp [h]
  | x :: y :: t, a, h => by
      rw [List.getLast?_cons_cons] at h
      exact List.mem_cons_of_mem x (mem_of_getLast?_nat h)

theorem chain_le_append_pair {tr : List Nat} {a b : Nat}
    (h1 : List.Chain' (· ≤ ·) tr) (h2 : ∀ x ∈ tr, x ≤ a) (hab : a ≤ b) :
    List.Chain' (· ≤ ·) (tr ++ [a, b]) := by
  rw [List.chain'_append]
  refine ⟨h1, by simp [List.chain'_cons, hab], ?_⟩
  intro x hx y hy
  simp only [List.head?_cons, Option.mem_def, Option.some.injEq] at hy
  subst hy
  exact h2 x (mem_of_getLast?_nat hx)

theorem chain_le_append_one {tr : List Nat} {a : Nat}
    (h1 : List.Chain' (· ≤ ·) tr) (h2 : ∀ x ∈ tr, x ≤ a) :
    List.Chain' (· ≤ ·) (tr ++ [a]) := by
  rw [List.chain'_append]
  refine ⟨h1, by simp, ?_⟩
  intro x hx y hy
  simp only [List.head?_cons, Option.mem_def, Option.some.injEq] at hy
  subst hy
  exact h2 x (mem_of_getLast?_nat hx)

namespace MainForceBatchScheduler

theorem seq_halt (tid : String) (total k : Nat) (rest : List UnitResult)
    (i : Nat) (db : BatchDB) (res : List UnitResult) (tr : List Nat)
    (h : k ≤ i) :
    run_sequential_units tid total (some k) rest i db res tr =
      (db, res, tr) := by
  cases rest with
  | nil => rfl
  | cons o rest' =>
      simp only [run_sequential_units, cancelSeen, decide_eq_true_eq]
      rw [if_pos h]

theorem seq_history (tid : String) (total : Nat) (cf : Option Nat) :
    ∀ (rest : List UnitResult) (i : Nat) (db : BatchDB)
      (res : List UnitResult) (tr : List Nat),
      (run_sequential_units tid total cf rest i db res tr).1.history =
        db.history
  | [], _, _, _, _ => rfl
  | _ :: rest', i, db, res, tr => by
      simp only [run_sequential_units]
      by_cases hc : cancelSeen cf i = true
      · rw [if_pos hc]
      · rw [if_neg hc]
        exact seq_history tid total cf rest' (i + 1) _ _ _

theorem seq_results_cancel (tid : String) (total k : Nat) :
    ∀ (rest : List UnitResult) (i : Nat) (db : BatchDB)
      (res : List UnitResult) (tr : List Nat),
      i ≤ k → k ≤ i + rest.length →
      (run_sequential_units tid total (some k) rest i db res tr).2.1 =
        res ++ rest.take (k - i)
  | [], i, db, res, tr, _, _ => by simp [run_sequential_units]
  | o :: rest', i, db, res, tr, h1, h2 => by
      by_cases hk : k ≤ i
      · rw [seq_halt tid total k _ i db res tr hk]
        have h0 : k - i = 0 := by omega
        simp [h0]
      · simp only [run_sequential_units, cancelSeen, decide_eq_true_eq]
        rw [if_neg hk]
        have h2' : k ≤ (i + 1) + rest'.length := by
          simp only [List.length_cons] at h2; omega
        rw [seq_results_cancel tid total k rest' (i + 1) _ _ _
          (by omega) h2']
        obtain ⟨m, hm⟩ : ∃ m, k - i = m + 1 := ⟨k - i - 1, by omega⟩
        have hm' : k - (i + 1) = m := by omega
        simp [hm, hm', List.take_succ_cons]

theorem seq_cc_cancel (tid : String) (total k : Nat) :
    ∀ (rest : List UnitResult) (i : Nat) (db : BatchDB)
      (res : List UnitResult) (tr : List Nat),
      i < k → k ≤ i + rest.length →
      ∀ r ∈ (run_sequential_units tid total (some k) rest i db res
          tr).1.tasks,
        r.task_id = tid → r.completed_count = k
  | [], i, db, res, tr, h1, h2 => by
      exfalso; simp only [List.length_nil] at h2; omega
  | o :: rest', i, db, res, tr, h1, h2 => by
      simp only [run_sequential_units, cancelSeen, decide_eq_true_eq]
      rw [if_neg (by omega)]
      by_cases hk2 : i + 1 < k
      · exact seq_cc_cancel tid total k rest' (i + 1) _ _ _ hk2
          (by simp only [List.length_cons] at h2; omega)
      · have hki : k = i + 1 := by omega
        rw [seq_halt tid total k rest' (i + 1) _ _ _ (by omega)]
        intro r hr htid
        have h := MainForceBatchDatabase.update_task_progress_match _ tid
          (i + 1) Option.none (some (successCount (res ++ [o])))
          (some (failureCount (res ++ [o])))
          (some (((i : ℚ) + 1) / (total : ℚ) * 100)) r hr htid
        rw [h.1, hki]

theorem seq_none_results (tid : String) (total : Nat) :
    ∀ (rest : List UnitResult) (i : Nat) (db : BatchDB)
      (res : List UnitResult) (tr : List Nat),
      (run_sequential_units tid total Option.none rest i db res tr).2.1 =
        res ++ rest
  | [], _, _, res, _ => by simp [run_sequential_units]
  | o :: rest', i, db, res, tr => by
      simp only [run_sequential_units, cancelSeen, Bool.false_eq_true,
        if_false]
      rw [seq_none_results tid total rest' (i + 1) _ _ _]
      simp

theorem seq_none_rows (tid : String) (total : Nat) :
    ∀ (rest : List UnitResult) (i : Nat) (db : BatchDB)
      (res : List UnitResult) (tr : List Nat),
      rest ≠ [] →
      ∀ r ∈ (run_sequential_units tid total Option.none rest i db res
          tr).1.tasks,
        r.task_id = tid →
          r.completed_count = i + rest.length ∧
            r.success_count = successCount (res ++ rest) ∧
            r.failed_count = failureCount (res ++ rest)
  | [], _, _, _, _, hne => absurd rfl hne
  | o :: rest', i, db, res, tr, _ => by
      simp only [run_sequential_units, cancelSeen, Bool.false_eq_true,
        if_false]
      cases rest' with
      | nil =>
          simp only [run_sequential_units]
          intro r hr htid
          have h := MainForceBatchDatabase.update_task_progress_match _ tid
            (i + 1) Option.none (some (successCount (res ++ [o])))
            (some (failureCount (res ++ [o])))
            (some (((i : ℚ) + 1) / (total : ℚ) * 100)) r hr htid
          refine ⟨?_, h.2.1 _ rfl, h.2.2 _ rfl⟩
          rw [h.1]; simp
      | cons p rest'' =>
          intro r hr htid
          have ih := seq_none_rows tid total (p :: rest'') (i + 1) _
            (res ++ [o]) _ (by simp) r hr htid
          simp only [List.append_assoc, List.singleton_append] at ih
          refine ⟨?_, ih.2.1, ih.2.2⟩
          rw [ih.1]
          simp only [List.length_cons]
          omega

theorem seq_cc_bound (tid : String) (total : Nat) (cf : Option Nat) :
    ∀ (rest : List UnitResult) (i : Nat) (db : BatchDB)
      (res : List UnitResult) (tr : List Nat) (B : Nat),
      i + rest.length ≤ B →
      (∀ r ∈ db.tasks, r.task_id = tid → r.completed_count ≤ B) →
      ∀ r ∈ (run_sequential_units tid total cf rest i db res tr).1.tasks,
        r.task_id = tid → r.completed_count ≤ B
  | [], i, db, res, tr, B, _, hdb => by
      simpa [run_sequential_units] using hdb
  | o :: rest', i, db, res, tr, B, hB, hdb => by
      simp only [run_sequential_units]
      by_cases hc : cancelSeen cf i = true
      · rw [if_pos hc]; exact hdb
      · rw [if_neg hc]
        refine seq_cc_bound tid total cf rest' (i + 1) _ _ _ B ?_ ?_
        · simp only [List.length_cons] at hB; omega
        · intro r hr htid
          have h := MainForceBatchDatabase.update_task_progress_match _ tid
            (i + 1) Option.none (some (successCount (res ++ [o])))
            (some (failureCount (res ++ [o])))
            (some (((i : ℚ) + 1) / (total : ℚ) * 100)) r hr htid
          rw [h.1]
          simp only [List.length_cons] at hB; omega

theorem seq_trace_chain (tid : String) (total : Nat) (cf : Option Nat) :
    ∀ (rest : List UnitResult) (i : Nat) (db : BatchDB)
      (res : List UnitResult) (tr : List Nat),
      List.Chain' (· ≤ ·) tr → (∀ x ∈ tr, x ≤ i) →
      List.Chain' (· ≤ ·)
          (run_sequential_units tid total cf rest i db res tr).2.2 ∧
        ∀ x ∈ (run_sequential_units tid total cf rest i db res tr).2.2,
          x ≤ i + rest.length
  | [], i, db, res, tr, h1, h2 => by
      simp only [run_sequential_units]
      exact ⟨h1, fun x hx => le_trans (h2 x hx) (by omega)⟩
  | o :: rest', i, db, res, tr, h1, h2 => by
      simp only [run_sequential_units]
      by_cases hc : cancelSeen cf i = true
      · rw [if_pos hc]
        exact ⟨h1, fun x hx => le_trans (h2 x hx) (by omega)⟩
      · rw [if_neg hc]
        have hch : List.Chain' (· ≤ ·) (tr ++ [i, i + 1]) :=
          chain_le_append_pair h1 h2 (by omega)
        have hb : ∀ x ∈ tr ++ [i, i + 1], x ≤ i + 1 := by
          intro x hx
          rcases List.mem_append.mp hx with h | h
          · exact le_trans (h2 x h) (by omega)
          · simp only [List.mem_cons, List.not_mem_nil, or_false] at h
            rcases h with rfl | rfl <;> omega
        refine ⟨(seq_trace_chain tid total cf rest' (i + 1) _ _ _ hch hb).1,
          fun x hx => ?_⟩
        have hxb := (seq_trace_chain tid total cf rest' (i + 1) _ _ _
          hch hb).2 x hx
        simp only [List.length_cons]
        omega

end MainForceBatchScheduler

namespace StockAnalysisScheduler

theorem stock_none_flag (tid : String) (total ct : Nat) :
    ∀ (rest : List UnitResult) (j : Nat) (db : List StockTaskRow)
      (res : List UnitResult) (tr : List Nat),
      (run_batch_units tid total Option.none ct rest j db res
        tr).2.2.2 = false
  | [], _, _, _, _ => rfl
  | a :: rest', j, db, res, tr => by
      simp only [run_batch_units, cancelSeen, Bool.false_eq_true, if_false]
      exact stock_none_flag tid total ct rest' (j + 1) _ _ _

theorem stock_trace_chain (tid : String) (total ct : Nat)
    (cf : Option Nat) :
    ∀ (rest : List UnitResult) (j : Nat) (db : List StockTaskRow)
      (res : List UnitResult) (tr : List Nat),
      List.Chain' (· ≤ ·) tr → (∀ x ∈ tr, x ≤ j) →
      List.Chain' (· ≤ ·)
        (run_batch_units tid total cf ct rest j db res tr).2.2.1
  | [], j, db, res, tr, h1, _ => by
      simpa only [run_batch_units] using h1
  | a :: rest', j, db, res, tr, h1, h2 => by
      simp only [run_batch_units]
      by_cases hc : cancelSeen cf j = true
      · rw [if_pos hc]; exact h1
      · rw [if_neg hc]
        have hch : List.Chain' (· ≤ ·) (tr ++ [j + 1]) :=
          chain_le_append_one h1 (fun x hx => le_trans (h2 x hx) (by omega))
        have hb : ∀ x ∈ tr ++ [j + 1], x ≤ j + 1 := by
          intro x hx
          rcases List.mem_append.mp hx with h | h
          · exact le_trans (h2 x h) (by omega)
          · simp only [List.mem_cons, List.not_mem_nil, or_false] at h
            omega
        exact stock_trace_chain tid total ct cf rest' (j + 1) _ _ _ hch hb

end StockAnalysisScheduler

/-- A `running` selector-store row used by concrete witnesses. -/
def runningSelectorRow : SelectorTaskRow :=
  { task_id := "t0", selector_type := "low_price_bull", status := .running,
    params := Option.none, progress_percent := 30,
    current_step := some "正在筛选股票", results := Option.none,
    error_message := Option.none, started_at := some 1,
    completed_at := Option.none, created_at := 0 }

/-- A `completed` selector-store row used by concrete witnesses. -/
def completedSelectorRow : SelectorTaskRow :=
  { task_id := "t1", selector_type := "small_cap", status := .completed,
    params := Option.none, progress_percent := 100,
    current_step := some "完成", results := Option.none,
    error_message := Option.none, started_at := some 1,
    completed_at := some 3, created_at := 0 }

/-- A `running` stock-analysis row used by concrete witnesses. -/
def runningStockRow : StockTaskRow :=
  { task_id := "t0", task_type := "single", status := .running,
    symbols := ["AAPL"], period := "1y", config := Option.none,
    total_count := 1, completed_count := 0, current_symbol := Option.none,
    progress_percent := 0, results := Option.none,
    error_message := Option.none, started_at := some 1,
    completed_at := Option.none, created_at := 0 }

/-- A freshly created batch-task row (as `create_task` would produce). -/
def batchRowT : BatchTaskRow :=
  { id := 1, task_id := "t", status := .pending,
    stock_codes := ["A", "B", "C", "D", "E"],
    analysis_mode := "sequential", max_workers := 3, total_count := 5,
    completed_count := 0, success_count := 0, failed_count := 0,
    current_stock := Option.none, progress_percent := 0,
    error_message := Option.none, history_record_id := Option.none,
    started_at := Option.none, completed_at := Option.none,
    created_at := 0 }

/-- A batch database holding one pending task and an empty history. -/
def batchDB0 : BatchDB :=
  { history := [], next_history_id := 1, tasks := [batchRowT],
    next_task_row_id := 2 }

/-- Five per-unit outcomes, one of which reports failure. -/
def outcomes5 : List UnitResult :=
  [⟨"A", true⟩, ⟨"B", true⟩, ⟨"C", false⟩, ⟨"D", true⟩, ⟨"E", true⟩]

/-- Three per-unit outcomes, one of which reports failure. -/
def outcomes3 : List UnitResult :=
  [⟨"A", true⟩, ⟨"B", false⟩, ⟨"C", true⟩]

/-- C4 (amended): both result normalizers are total functions whose output
is fully JSON-normalized whenever the input's tabular cells are scalars;
values outside the recognized shapes degrade to their string form; when
stringification itself raises, the selector/stock normalizer substitutes
`None` while the batch normalizer substitutes the fixed sentinel string
`"无法序列化"`. -/
theorem normalizer_degrades_unrepresentable_values (v : PyVal) (s : String)
    (h : v.goodCells = true) :
    (SelectorTaskDB.clean_for_json v).isJsonSafe = true ∧
    (MainForceBatchDatabase.clean_value v).isJsonSafe = true ∧
    SelectorTaskDB.clean_for_json (.obj (some s)) = .str s ∧
    MainForceBatchDatabase.clean_value (.obj (some s)) = .str s ∧
    SelectorTaskDB.clean_for_json (.obj Option.none) = .none ∧
    MainForceBatchDatabase.clean_value (.obj Option.none) =
      .str "无法序列化" :=
  ⟨SelectorTaskDB.clean_jsonSafe v h,
   MainForceBatchDatabase.cleanValue_jsonSafe v h, rfl, rfl, rfl, rfl⟩

/-- C4 witness at a concrete dict containing a scalar-cell DataFrame. -/
theorem normalizer_degrades_unrepresentable_values_witness :
    (PyVal.dict (.cons "df"
        (.dataframe (.cons (.cons "a" (.int 1) .nil) .nil))
        (.cons "x" (.obj Option.none) .nil))).goodCells = true ∧
    (SelectorTaskDB.clean_for_json (PyVal.dict (.cons "df"
        (.dataframe (.cons (.cons "a" (.int 1) .nil) .nil))
        (.cons "x" (.obj Option.none) .nil)))).isJsonSafe = true :=
  ⟨by decide,
   (normalizer_degrades_unrepresentable_values _ "x" (by decide)).1⟩

/-- C4 counterexample: when `str(obj)` raises, the selector store's
normalizer substitutes `None`, not a sentinel string — the output is not a
string at all. -/
theorem selector_normalizer_fails_to_substitute_string :
    SelectorTaskDB.clean_for_json (.obj Option.none) = PyVal.none ∧
    (SelectorTaskDB.clean_for_json (.obj Option.none)).isStr = false := by
  decide

/-- C6 (confirmed): both `_clean_for_json` normalizers convert a DataFrame
with more than 100 rows into exactly its first 100 rows, in order, and keep
all rows of a DataFrame with at most 100 rows. -/
theorem dataframe_truncated_to_100_rows (rows : PyRows) :
    (100 < rows.length →
      SelectorTaskDB.clean_for_json (.dataframe rows) =
          .list (rows.take 100).toRecords ∧
        StockAnalysisTaskDB.clean_for_json (.dataframe rows) =
          .list (rows.take 100).toRecords ∧
        (rows.take 100).toRecords.length = 100) ∧
    (rows.length ≤ 100 →
      SelectorTaskDB.clean_for_json (.dataframe rows) =
          .list rows.toRecords ∧
        StockAnalysisTaskDB.clean_for_json (.dataframe rows) =
          .list rows.toRecords ∧
        rows.toRecords.length = rows.length) := by
  constructor
  · intro h
    refine ⟨?_, ?_, ?_⟩
    · simp [SelectorTaskDB.clean_for_json, h]
    · simp [StockAnalysisTaskDB.clean_for_json, h]
    · rw [PyRows.toRecords_length, PyRows.take_length]; omega
  · intro h
    have heq : ¬ 100 < rows.length := by omega
    refine ⟨?_, ?_, PyRows.toRecords_length rows⟩
    · simp [SelectorTaskDB.clean_for_json, heq]
    · simp [StockAnalysisTaskDB.clean_for_json, heq]

/-- A concrete 500-row DataFrame body. -/
def row500 : PyRows := PyRows.replicate 500 (.cons "a" (.int 1) .nil)

/-- C6 witness: normalizing a 500-row table yields exactly 100 rows. -/
theorem dataframe_truncated_to_100_rows_witness :
    100 < row500.length ∧ (row500.take 100).toRecords.length = 100 := by
  have hl : row500.length = 500 := PyRows.replicate_length 500 _
  have h := (dataframe_truncated_to_100_rows row500).1 (by omega)
  exact ⟨by omega, h.2.2⟩

/-- C7 (amended): `SelectorTaskDB.create_task` inserts a `pending` row and
returns `True`, and returns `False` with the table unchanged on a
storage-layer error, never throwing; `MainForceBatchDatabase.create_task`,
by contrast, has no exception handler — a storage-layer error propagates to
the caller (and on success it returns the new record id, not a boolean). -/
theorem create_task_error_contracts (db : List SelectorTaskRow)
    (bdb : BatchDB) (task_id selector_type : String)
    (params : Option String) (codes : List String) (mode : String)
    (mw : Nat) (now : Nat) (hdup : ∀ r ∈ db, r.task_id ≠ task_id) :
    SelectorTaskDB.create_task db task_id selector_type params now false =
      (true, db ++ [{ task_id := task_id,
                      selector_type := selector_type,
                      status := .pending, params := params,
                      progress_percent := 0,
                      current_step := Option.none, results := Option.none,
                      error_message := Option.none,
                      started_at := Option.none,
                      completed_at := Option.none, created_at := now }]) ∧
    SelectorTaskDB.create_task db task_id selector_type params now true =
      (false, db) ∧
    MainForceBatchDatabase.create_task bdb task_id codes mode mw now true =
      .error "sqlite3.Error" := by
  refine ⟨?_, rfl, rfl⟩
  unfold SelectorTaskDB.create_task
  have hany : db.any (fun r => r.task_id == task_id) = false := by
    simp only [List.any_eq_false, beq_iff_eq]
    exact hdup
  rw [hany]
  rfl

/-- C7 witness at an empty selector table and a unit batch database. -/
theorem create_task_error_contracts_witness :
    SelectorTaskDB.create_task [] "t" "small_cap" Option.none 4 false =
      (true, [{ task_id := "t", selector_type := "small_cap",
                status := .pending, params := Option.none,
                progress_percent := 0,
                current_step := Option.none, results := Option.none,
                error_message := Option.none, started_at := Option.none,
                completed_at := Option.none, created_at := 4 }]) ∧
    SelectorTaskDB.create_task [] "t" "small_cap" Option.none 4 true =
      (false, []) :=
  ⟨(create_task_error_contracts [] batchDB0 "t" "small_cap" Option.none
      ["A"] "sequential" 3 4 (by simp)).1,
   (create_task_error_contracts [] batchDB0 "t" "small_cap" Option.none
      ["A"] "sequential" 3 4 (by simp)).2.1⟩

/-- C7 counterexample: on a storage-layer error
`MainForceBatchDatabase.create_task` propagates the exception instead of
returning `False`. -/
theorem batch_create_task_propagates_storage_error :
    MainForceBatchDatabase.create_task
      { history := [], next_history_id := 1, tasks := [],
        next_task_row_id := 1 } "t" ["AAPL"] "sequential" 3 0 true =
      .error "sqlite3.Error" := rfl

/-- C9 (confirmed): `update_task_progress` always writes
`completed_count`, writes each of `current_stock`, `success_count`,
`failed_count`, `progress_percent` only when supplied, and leaves every
other field of the matching row, every non-matching row, and the other
table untouched. -/
theorem update_task_progress_frame (db : BatchDB) (task_id : String)
    (c : Nat) (cs : Option String) (sc fc : Option Nat) (pp : Option ℚ) :
    (MainForceBatchDatabase.update_task_progress db task_id c cs sc fc
        pp).history = db.history ∧
    (MainForceBatchDatabase.update_task_progress db task_id c cs sc fc
        pp).next_history_id = db.next_history_id ∧
    (MainForceBatchDatabase.update_task_progress db task_id c cs sc fc
        pp).next_task_row_id = db.next_task_row_id ∧
    (MainForceBatchDatabase.update_task_progress db task_id c cs sc fc
        pp).tasks = db.tasks.map (fun r =>
      if r.task_id = task_id then
        { r with completed_count := c,
                 current_stock := cs.or r.current_stock,
                 success_count := sc.getD r.success_count,
                 failed_count := fc.getD r.failed_count,
                 progress_percent := pp.getD r.progress_percent }
      else r) := by
  refine ⟨rfl, rfl, rfl, ?_⟩
  unfold MainForceBatchDatabase.update_task_progress
  show db.tasks.map _ = db.tasks.map _
  induction db.tasks with
  | nil => rfl
  | cons r t ih =>
      simp only [List.map_cons, ih]
      congr 1
      by_cases h : r.task_id = task_id
      · rw [if_pos (by simpa [beq_iff_eq] using h), if_pos h]
        cases cs <;> cases sc <;> cases fc <;> cases pp <;> rfl
      · rw [if_neg (by simpa [beq_iff_eq] using h), if_neg h]

/-- C9 witness: supplying only `completed_count` changes exactly that
field of the matching row. -/
theorem update_task_progress_frame_witness :
    (MainForceBatchDatabase.update_task_progress batchDB0 "t" 2 Option.none
        Option.none Option.none Option.none).tasks =
      [{ batchRowT with completed_count := 2 }] := by
  have h := (update_task_progress_frame batchDB0 "t" 2 Option.none
    Option.none Option.none Option.none).2.2.2
  rw [h]
  decide

/-- C10 (amended): the selector store's normalizer is idempotent on every
input whose tabular nodes hold only scalar-or-null cells; for tables with
non-scalar cells a second application rewrites the raw cell values, so
idempotence fails in general. -/
theorem normalizer_idempotent_on_scalar_tables (v : PyVal)
    (h : v.goodCells = true) :
    SelectorTaskDB.clean_for_json (SelectorTaskDB.clean_for_json v) =
      SelectorTaskDB.clean_for_json v :=
  SelectorTaskDB.clean_fixed _ (SelectorTaskDB.clean_jsonSafe v h)

/-- C10 witness at a dict holding a scalar-cell DataFrame. -/
theorem normalizer_idempotent_on_scalar_tables_witness :
    (PyVal.dict (.cons "df"
        (.dataframe (.cons (.cons "a" (.int 1) .nil) .nil)) .nil)).goodCells
      = true ∧
    SelectorTaskDB.clean_for_json (SelectorTaskDB.clean_for_json
        (PyVal.dict (.cons "df"
          (.dataframe (.cons (.cons "a" (.int 1) .nil) .nil)) .nil))) =
      SelectorTaskDB.clean_for_json
        (PyVal.dict (.cons "df"
          (.dataframe (.cons (.cons "a" (.int 1) .nil) .nil)) .nil)) :=
  ⟨by decide, normalizer_idempotent_on_scalar_tables _ (by decide)⟩

/-- C10 counterexample: a one-row DataFrame whose cell is an arbitrary
object is not a fixed point after one normalization — the second pass
stringifies the raw cell. -/
theorem normalizer_not_idempotent_on_object_cells :
    SelectorTaskDB.clean_for_json (SelectorTaskDB.clean_for_json
        (.dataframe (.cons (.cons "a" (.obj (some "o")) .nil) .nil))) ≠
      SelectorTaskDB.clean_for_json
        (.dataframe (.cons (.cons "a" (.obj (some "o")) .nil) .nil)) := by
  decide

/-- C1 (amended): the selector and main-force batch schedulers enforce
single-flight admission — while any task of the same category is
non-terminal, `start` rejects the call and leaves the task table untouched
(both via the held per-category lock and via the store-level re-check).
The stock-analysis scheduler, by contrast, performs no admission check at
all (see the counterexample). -/
theorem single_flight_with_admission_gate (st : SelectorSchedulerState)
    (bst : BatchSchedulerState) (selector_type : String)
    (params : Option String) (codes : List String) (mode : String)
    (mw : Nat) (tid1 tid2 : String) (now : Nat) (ioFail : Bool)
    (h1 : ∃ r ∈ st.db, r.selector_type = selector_type ∧
      r.status.nonTerminal = true)
    (h2 : ∃ r ∈ bst.db.tasks, r.status.nonTerminal = true) :
    (SelectorScheduler.start_background_selection st selector_type params
        tid1 now ioFail).1.success = false ∧
    (SelectorScheduler.start_background_selection st selector_type params
        tid1 now ioFail).2.db = st.db ∧
    (MainForceBatchScheduler.start_batch_analysis bst codes mode mw tid2
        now ioFail).1.success = false ∧
    (MainForceBatchScheduler.start_batch_analysis bst codes mode mw tid2
        now ioFail).2.db = bst.db := by
  obtain ⟨r1, hr1, hty, hnt⟩ := h1
  obtain ⟨r2, hr2, hnt2⟩ := h2
  have hsel : (SelectorScheduler.start_background_selection st
        selector_type params tid1 now ioFail).1.success = false ∧
      (SelectorScheduler.start_background_selection st selector_type params
        tid1 now ioFail).2.db = st.db := by
    by_cases hl : selector_type ∈ st.locks_held
    · simp [SelectorScheduler.start_background_selection, hl]
    · have hmem : r1 ∈ SelectorTaskDB.get_running_tasks st.db
          (some selector_type) := by
        simp only [SelectorTaskDB.get_running_tasks, List.mem_filter,
          Bool.and_eq_true, beq_iff_eq]
        exact ⟨hr1, hnt, hty⟩
      cases hrt : SelectorTaskDB.get_running_tasks st.db
          (some selector_type) with
      | nil => rw [hrt] at hmem; exact absurd hmem (List.not_mem_nil r1)
      | cons a as =>
          simp [SelectorScheduler.start_background_selection, hl, hrt]
  have hbat : (MainForceBatchScheduler.start_batch_analysis bst codes mode
        mw tid2 now ioFail).1.success = false ∧
      (MainForceBatchScheduler.start_batch_analysis bst codes mode mw tid2
        now ioFail).2.db = bst.db := by
    by_cases hlk : bst.lock_held
    · simp [MainForceBatchScheduler.start_batch_analysis, hlk]
    · cases hfind : MainForceBatchDatabase.get_running_task bst.db with
      | none =>
          exfalso
          rw [MainForceBatchDatabase.get_running_task,
            List.find?_eq_none] at hfind
          exact absurd hnt2 (by simpa using hfind r2 hr2)
      | some t =>
          simp [MainForceBatchScheduler.start_batch_analysis, hlk, hfind]
  exact ⟨hsel.1, hsel.2, hbat.1, hbat.2⟩

/-- C1 witness: with a running task of the same category in each store,
both gated schedulers reject. -/
theorem single_flight_with_admission_gate_witness :
    (SelectorScheduler.start_background_selection
        ⟨[], [], [runningSelectorRow]⟩ "low_price_bull" Option.none "t9" 7
        false).1.success = false ∧
    (MainForceBatchScheduler.start_batch_analysis
        ⟨false, false, Option.none, batchDB0⟩ ["A"] "sequential" 3 "t9" 7
        false).1.success = false := by
  have h := single_flight_with_admission_gate ⟨[], [], [runningSelectorRow]⟩
    ⟨false, false, Option.none, batchDB0⟩ "low_price_bull" Option.none
    ["A"] "sequential" 3 "t9" "t9" 7 false
    ⟨runningSelectorRow, by decide, by decide, by decide⟩
    ⟨batchRowT, by decide, by decide⟩
  exact ⟨h.1, h.2.2.1⟩

/-- C1 counterexample: `StockAnalysisScheduler.start_background_analysis`
accepts while a task of its category is still running, leaving two
non-terminal tasks in the store — no lock is taken and no store check is
performed. -/
theorem stock_analysis_start_ignores_running_tasks :
    (StockAnalysisScheduler.start_background_analysis
        ⟨[], [runningStockRow]⟩ "MSFT" "1y" Option.none "t1" 5
        false).1.success = true ∧
    (StockAnalysisTaskDB.get_running_tasks
        (StockAnalysisScheduler.start_background_analysis
          ⟨[], [runningStockRow]⟩ "MSFT" "1y" Option.none "t1" 5
          false).2.db).length = 2 := by
  decide

/-- C2 (amended): the task stores apply `update_task_status` and
`update_task_progress` unconditionally — a terminal status can be
overwritten by a later call (see the counterexample) — and the only
terminal-state protection lives in the scheduler's `cancel_task` fallback,
which refuses to modify a task that is missing or already terminal. -/
theorem cancel_task_preserves_terminal_tasks (st : SelectorSchedulerState)
    (task_id : String) (now : Nat)
    (hev : st.cancel_events.find? (fun e => e.1 == task_id) = Option.none)
    (hterm : ∀ t, SelectorTaskDB.get_task st.db task_id = some t →
      t.status.isTerminal = true) :
    (SelectorScheduler.cancel_task st task_id now).1 = false ∧
    (SelectorScheduler.cancel_task st task_id now).2 = st := by
  simp only [SelectorScheduler.cancel_task, hev, Option.isSome_none,
    Bool.false_eq_true, if_false]
  cases hg : SelectorTaskDB.get_task st.db task_id with
  | none => exact ⟨rfl, rfl⟩
  | some t =>
      have ht := hterm t hg
      have hnp : (t.status == Status.pending
          || t.status == Status.running) = false := by
        cases h : t.status <;> simp_all [Status.isTerminal]
      simp [hnp]

/-- C2 witness: cancelling an untracked, already-completed task reports
failure and leaves the store byte-for-byte unchanged. -/
theorem cancel_task_preserves_terminal_tasks_witness :
    (SelectorScheduler.cancel_task ⟨[], [], [completedSelectorRow]⟩ "t1"
      9).1 = false ∧
    (SelectorScheduler.cancel_task ⟨[], [], [completedSelectorRow]⟩ "t1"
      9).2 = ⟨[], [], [completedSelectorRow]⟩ := by
  refine cancel_task_preserves_terminal_tasks _ _ 9 (by decide) ?_
  intro t ht
  rw [show SelectorTaskDB.get_task [completedSelectorRow] "t1" =
    some completedSelectorRow from by decide] at ht
  injection ht with h
  rw [← h]
  decide

/-- C2 counterexample: `SelectorTaskDB.update_task_status` overwrites a
terminal status — a `completed` row becomes `failed` on the next call. -/
theorem update_task_status_overwrites_terminal :
    completedSelectorRow.status = Status.completed ∧
    ((SelectorTaskDB.update_task_status [completedSelectorRow] "t1"
        .failed Option.none 9 false).2.map fun r => r.status) =
      [Status.failed] := by
  decide

/-- C3 (amended): when the sequential main-force worker observes the
cancel flag after `k` of `n` units (`0 < k < n`), it stops iterating (its
accumulated results are exactly the first `k` outcomes), finalizes the
task as `cancelled` with `completed_count = k`, and saves nothing: the
history table is left exactly as it was, because `save_batch_analysis` is
skipped whenever the cancel flag is set. -/
theorem seq_cancel_finalizes_without_saving (db0 : BatchDB)
    (task_id : String) (outcomes : List UnitResult)
    (k startTime endTime : Nat) (elapsed : ℚ)
    (hk0 : 0 < k) (hkn : k < outcomes.length) :
    (MainForceBatchScheduler.run_analysis_sequential db0 task_id outcomes
        (some k) startTime endTime elapsed).results = outcomes.take k ∧
    (MainForceBatchScheduler.run_analysis_sequential db0 task_id outcomes
        (some k) startTime endTime elapsed).db.history = db0.history ∧
    ∀ r ∈ (MainForceBatchScheduler.run_analysis_sequential db0 task_id
        outcomes (some k) startTime endTime elapsed).db.tasks,
      r.task_id = task_id →
        r.status = .cancelled ∧ r.completed_count = k := by
  have hres := MainForceBatchScheduler.seq_results_cancel task_id
    outcomes.length k outcomes 0
    (MainForceBatchDatabase.update_task_status db0 task_id .running
      Option.none Option.none (some startTime) Option.none) [] []
    (by omega) (by omega)
  simp only [List.nil_append, Nat.sub_zero] at hres
  have hlen : (outcomes.take k).length = k := by
    rw [List.length_take]; omega
  simp only [MainForceBatchScheduler.run_analysis_sequential]
  rw [hres, hlen,
    if_pos (show cancelSeen (some k) k = true from by simp [cancelSeen])]
  refine ⟨rfl, ?_, ?_⟩
  · show (MainForceBatchDatabase.update_task_status _ _ _ _ _ _ _).history
      = db0.history
    rw [MainForceBatchDatabase.update_task_status_history]
    exact MainForceBatchScheduler.seq_history task_id outcomes.length
      (some k) outcomes 0 _ [] []
  · intro r hr htid
    refine ⟨MainForceBatchDatabase.update_task_status_match _ task_id
      .cancelled Option.none Option.none Option.none (some endTime) r hr
      htid, ?_⟩
    obtain ⟨r0, hr0, hid, hcc, _, _⟩ :=
      MainForceBatchDatabase.update_task_status_shape _ task_id .cancelled
        Option.none Option.none Option.none (some endTime) r hr
    have h0 := MainForceBatchScheduler.seq_cc_cancel task_id
      outcomes.length k outcomes 0 _ [] [] (by omega) (by omega) r0 hr0
      (by rw [← hid]; exact htid)
    rw [hcc, h0]

/-- C3 witness: a concrete 5-unit run cancelled after unit 2 keeps exactly
the first two outcomes in the worker's accumulator and appends nothing to
the history table. -/
theorem seq_cancel_finalizes_without_saving_witness :
    (MainForceBatchScheduler.run_analysis_sequential batchDB0 "t" outcomes5
        (some 2) 10 20 5).results = outcomes5.take 2 ∧
    (MainForceBatchScheduler.run_analysis_sequential batchDB0 "t" outcomes5
        (some 2) 10 20 5).db.history = batchDB0.history :=
  ⟨(seq_cancel_finalizes_without_saving batchDB0 "t" outcomes5 2 10 20 5
      (by decide) (by decide)).1,
   (seq_cancel_finalizes_without_saving batchDB0 "t" outcomes5 2 10 20 5
      (by decide) (by decide)).2.1⟩

/-- C3 counterexample: cancelling after unit 2 of 5 does finalize the task
as `cancelled` with `completed_count = 2`, but the results saved for the
task are empty — the history table stays empty, contradicting the claim
that the two completed units' outcomes are saved. -/
theorem seq_cancel_saves_nothing_example :
    (MainForceBatchScheduler.run_analysis_sequential batchDB0 "t" outcomes5
        (some 2) 10 20 5).db.history = [] ∧
    ((MainForceBatchScheduler.run_analysis_sequential batchDB0 "t"
        outcomes5 (some 2) 10 20 5).db.tasks.map fun r =>
          (r.status, r.completed_count)) = [(Status.cancelled, 2)] := by
  decide

/-- C5 (confirmed): a batch that runs to normal exhaustion without
cancellation finishes `completed` — never `failed` — regardless of how many
units failed: the main-force sequential worker records a history entry with
`success_count = N - K` and `failed_count = K` and writes those counts into
the task row, and the stock-analysis parallel worker likewise marks the
task `completed`. -/
theorem batch_partial_failure_reaches_completed (db0 : BatchDB)
    (sdb0 : List StockTaskRow) (task_id : String)
    (outcomes : List UnitResult) (startTime endTime : Nat) (elapsed : ℚ) :
    ((MainForceBatchScheduler.run_analysis_sequential db0 task_id outcomes
        Option.none startTime endTime elapsed).db.history.map fun rec =>
          (rec.batch_count, rec.analysis_mode, rec.success_count,
            rec.failed_count, rec.results)) =
      (db0.history.map fun rec =>
          (rec.batch_count, rec.analysis_mode, rec.success_count,
            rec.failed_count, rec.results)) ++
        [(outcomes.length, "sequential",
          outcomes.length - failureCount outcomes, failureCount outcomes,
          outcomes)] ∧
    (∀ r ∈ (MainForceBatchScheduler.run_analysis_sequential db0 task_id
        outcomes Option.none startTime endTime elapsed).db.tasks,
      r.task_id = task_id →
        r.status = .completed ∧
          (0 < outcomes.length →
            r.success_count = outcomes.length - failureCount outcomes ∧
              r.failed_count = failureCount outcomes)) ∧
    ∀ r ∈ (StockAnalysisScheduler.run_batch_analysis sdb0 task_id outcomes
        Option.none startTime endTime).1,
      r.task_id = task_id → r.status = .completed := by
  have hcount := successCount_add_failureCount outcomes
  have hres := MainForceBatchScheduler.seq_none_results task_id
    outcomes.length outcomes 0
    (MainForceBatchDatabase.update_task_status db0 task_id .running
      Option.none Option.none (some startTime) Option.none) [] []
  simp only [List.nil_append] at hres
  refine ⟨?_, ?_, ?_⟩
  · simp only [MainForceBatchScheduler.run_analysis_sequential]
    rw [hres, if_neg (by simp [cancelSeen])]
    rw [MainForceBatchDatabase.update_task_status_history]
    show ((MainForceBatchScheduler.run_sequential_units task_id
        outcomes.length Option.none outcomes 0 _ [] []).1.history ++
          [_]).map _ = _
    rw [MainForceBatchScheduler.seq_history task_id outcomes.length
      Option.none outcomes 0 _ [] []]
    show (db0.history ++ [_]).map _ = _
    rw [List.map_append]
    simp only [List.map_cons, List.map_nil, List.append_cancel_left_eq,
      List.cons.injEq, and_true, Prod.mk.injEq]
    exact ⟨trivial, trivial, by omega, by omega⟩
  · simp only [MainForceBatchScheduler.run_analysis_sequential]
    rw [hres, if_neg (by simp [cancelSeen])]
    intro r hr htid
    refine ⟨MainForceBatchDatabase.update_task_status_match _ task_id
      .completed Option.none _ Option.none (some endTime) r hr htid, ?_⟩
    intro hn
    obtain ⟨r0, hr0, hid, _, hsc, hfc⟩ :=
      MainForceBatchDatabase.update_task_status_shape _ task_id .completed
        Option.none _ Option.none (some endTime) r hr
    have h0 := MainForceBatchScheduler.seq_none_rows task_id
      outcomes.length outcomes 0 _ [] []
      (by intro he; rw [he] at hn; simp at hn) r0 hr0
      (by rw [← hid]; exact htid)
    simp only [List.nil_append] at h0
    rw [hsc, hfc, h0.2.1, h0.2.2]
    constructor
    · simp only [successCount, failureCount] at hcount ⊢; omega
    · rfl
  · simp only [StockAnalysisScheduler.run_batch_analysis]
    rw [StockAnalysisScheduler.stock_none_flag task_id outcomes.length
      endTime outcomes 0 _ [] []]
    rw [if_neg (by simp)]
    split
    · intro r hr htid
      have hr' : r ∈ (StockAnalysisTaskDB.update_task_status _ task_id
          Status.completed Option.none endTime false).2 := hr
      exact StockAnalysisTaskDB.stock_update_task_status_match _ task_id
        .completed _ endTime r hr' htid
    · dsimp only
      intro r hr htid
      exact StockAnalysisTaskDB.stock_update_task_status_match _ task_id
        .completed _ endTime r hr htid

/-- C5 witness: 3 units with 1 failure end `completed` with counts 2/1. -/
theorem batch_partial_failure_reaches_completed_witness :
    ((MainForceBatchScheduler.run_analysis_sequential batchDB0 "t"
        outcomes3 Option.none 1 2 3).db.history.map fun rec =>
          (rec.batch_count, rec.analysis_mode, rec.success_count,
            rec.failed_count, rec.results)) =
      [(3, "sequential", 2, 1, outcomes3)] ∧
    ((MainForceBatchScheduler.run_analysis_sequential batchDB0 "t"
        outcomes3 Option.none 1 2 3).db.tasks.map fun r =>
          (r.status, r.success_count, r.failed_count)) =
      [(Status.completed, 2, 1)] := by
  have h := (batch_partial_failure_reaches_completed batchDB0 [] "t"
    outcomes3 1 2 3).1
  refine ⟨?_, by decide⟩
  rw [h]
  decide

/-- C8 (confirmed): within one run, the `completed_count` values a worker
passes to `update_task_progress` form a monotonically non-decreasing
sequence (both for the sequential main-force worker and the parallel
stock-analysis worker); a sequential run that completes ends with the row's
`completed_count` equal to `total_count`, and any run — cancelled or not —
leaves it at most `total_count` provided it started there. -/
theorem progress_counts_monotone (db0 : BatchDB)
    (sdb0 : List StockTaskRow) (task_id : String)
    (outcomes arrivals : List UnitResult) (cancelFrom : Option Nat)
    (startTime endTime : Nat) (elapsed : ℚ) :
    List.Chain' (· ≤ ·)
      (MainForceBatchScheduler.run_analysis_sequential db0 task_id outcomes
        cancelFrom startTime endTime elapsed).trace ∧
    List.Chain' (· ≤ ·)
      (StockAnalysisScheduler.run_batch_analysis sdb0 task_id arrivals
        cancelFrom startTime endTime).2.2 ∧
    (cancelFrom = Option.none → 0 < outcomes.length →
      ∀ r ∈ (MainForceBatchScheduler.run_analysis_sequential db0 task_id
          outcomes cancelFrom startTime endTime elapsed).db.tasks,
        r.task_id = task_id → r.completed_count = outcomes.length) ∧
    ((∀ r0 ∈ db0.tasks, r0.task_id = task_id →
        r0.completed_count ≤ outcomes.length) →
      ∀ r ∈ (MainForceBatchScheduler.run_analysis_sequential db0 task_id
          outcomes cancelFrom startTime endTime elapsed).db.tasks,
        r.task_id = task_id → r.completed_count ≤ outcomes.length) := by
  refine ⟨?_, ?_, ?_, ?_⟩
  · simp only [MainForceBatchScheduler.run_analysis_sequential]
    split
    · exact (MainForceBatchScheduler.seq_trace_chain task_id
        outcomes.length cancelFrom outcomes 0 _ [] [] (by simp)
        (by simp)).1
    · exact (MainForceBatchScheduler.seq_trace_chain task_id
        outcomes.length cancelFrom outcomes 0 _ [] [] (by simp)
        (by simp)).1
  · simp only [StockAnalysisScheduler.run_batch_analysis]
    split
    · exact StockAnalysisScheduler.stock_trace_chain task_id
        arrivals.length endTime cancelFrom arrivals 0 _ [] [] (by simp)
        (by simp)
    · split
      · exact StockAnalysisScheduler.stock_trace_chain task_id
          arrivals.length endTime cancelFrom arrivals 0 _ [] [] (by simp)
          (by simp)
      · exact StockAnalysisScheduler.stock_trace_chain task_id
          arrivals.length endTime cancelFrom arrivals 0 _ [] [] (by simp)
          (by simp)
  · intro hcf hn
    subst hcf
    have hres := MainForceBatchScheduler.seq_none_results task_id
      outcomes.length outcomes 0
      (MainForceBatchDatabase.update_task_status db0 task_id .running
        Option.none Option.none (some startTime) Option.none) [] []
    simp only [List.nil_append] at hres
    simp only [MainForceBatchScheduler.run_analysis_sequential]
    rw [hres, if_neg (by simp [cancelSeen])]
    intro r hr htid
    obtain ⟨r0, hr0, hid, hcc, _, _⟩ :=
      MainForceBatchDatabase.update_task_status_shape _ task_id .completed
        Option.none _ Option.none (some endTime) r hr
    have h0 := MainForceBatchScheduler.seq_none_rows task_id
      outcomes.length outcomes 0 _ [] []
      (by intro he; rw [he] at hn; simp at hn) r0 hr0
      (by rw [← hid]; exact htid)
    rw [hcc, h0.1]
    omega
  · intro hpre
    have hdb1pre : ∀ rr ∈ (MainForceBatchDatabase.update_task_status db0
        task_id .running Option.none Option.none (some startTime)
        Option.none).tasks,
        rr.task_id = task_id → rr.completed_count ≤ outcomes.length := by
      intro rr hrr hrtid
      obtain ⟨rr0, hrr0, hid2, hcc2, _, _⟩ :=
        MainForceBatchDatabase.update_task_status_shape db0 task_id
          .running Option.none Option.none (some startTime) Option.none rr
          hrr
      rw [hcc2]
      exact hpre rr0 hrr0 (by rw [← hid2]; exact hrtid)
    simp only [MainForceBatchScheduler.run_analysis_sequential]
    split
    · intro r hr htid
      obtain ⟨r0, hr0, hid, hcc, _, _⟩ :=
        MainForceBatchDatabase.update_task_status_shape _ task_id
          .cancelled Option.none Option.none Option.none (some endTime) r
          hr
      rw [hcc]
      exact MainForceBatchScheduler.seq_cc_bound task_id outcomes.length
        cancelFrom outcomes 0 _ [] [] outcomes.length (by omega) hdb1pre r0
        hr0 (by rw [← hid]; exact htid)
    · intro r hr htid
      obtain ⟨r0, hr0, hid, hcc, _, _⟩ :=
        MainForceBatchDatabase.update_task_status_shape _ task_id
          .completed Option.none _ Option.none (some endTime) r hr
      rw [hcc]
      exact MainForceBatchScheduler.seq_cc_bound task_id outcomes.length
        cancelFrom outcomes 0 _ [] [] outcomes.length (by omega) hdb1pre r0
        hr0 (by rw [← hid]; exact htid)

/-- C8 witness: on a concrete completed run the trace is a non-decreasing
chain and the final `completed_count` equals the batch size. -/
theorem progress_counts_monotone_witness :
    List.Chain' (· ≤ ·) (MainForceBatchScheduler.run_analysis_sequential
      batchDB0 "t" outcomes3 Option.none 1 2 3).trace ∧
    ((MainForceBatchScheduler.run_analysis_sequential batchDB0 "t"
        outcomes3 Option.none 1 2 3).db.tasks.map fun r =>
          r.completed_count) = [outcomes3.length] := by
  have h := progress_counts_monotone batchDB0 [] "t" outcomes3 outcomes3
    Option.none 1 2 3
  exact ⟨h.1, by decide⟩

end StockTasks
